import Mathlib

/-!
Verification of the playlist persistence/merge core of the IPTV PWA service
(`src/app/services/pwa.service.ts`).

Shallow embedding conventions:
* Record identifiers are produced at runtime by `guid()` (an opaque
  globally-unique string generator).  The claims use identifiers only up to
  equality and membership, so we model identifiers as natural numbers drawn
  from a monotone supply (the supply state is a counter threaded explicitly).
* Timestamps (`new Date().toISOString()`, `Date.now()`) are modelled as a
  `now : Nat` instant passed in explicitly; the ISO-8601 rendering performed
  by the runtime `Date` library is outside the model.
* TypeScript optional fields / `undefined` are modelled with `Option`.
* The IndexedDB store is modelled as a `List Playlist`; `getByID` + `update`
  read-then-write chains become pure functions over that list (primary keys
  are unique in an object store, so replace-by-id is a `map`).
-/

namespace Iptv

/-- Header of a parsed playlist, as produced by `iptv-playlist-parser`:
playlist-level attributes plus the raw header line. -/
structure PlaylistHeader where
  attrs : List (String × String)
  raw : String
deriving Repr, DecidableEq

/-- One item of a freshly parsed playlist (`iptv-playlist-parser` output).
Parser items carry no identifier; identifiers are assigned by
`createPlaylistObject`. -/
structure PlaylistItem where
  name : String
  url : String
  group : String
  tvg : String
deriving Repr, DecidableEq

/-- A stored playlist entry: a parsed item together with the identifier
generated in `createPlaylistObject` (`{ id: guid(), ...item }`; parser items
have no `id` field, so the generated one is never overridden). -/
structure Channel where
  id : Nat
  name : String
  url : String
  group : String
  tvg : String
deriving Repr, DecidableEq

/-- Result of `parse` (a `ParsedPlaylist`): header plus ordered item sequence. -/
structure ParsedPlaylist where
  header : PlaylistHeader
  items : List PlaylistItem
deriving Repr, DecidableEq

/-- The nested `playlist` field of a stored record: the parsed header together
with the re-identified entry sequence. -/
structure PlaylistContent where
  header : PlaylistHeader
  items : List Channel
deriving Repr, DecidableEq

/-- Upload origin kind (`'URL' | 'FILE'`). -/
inductive UploadType where
  | URL : UploadType
  | FILE : UploadType
deriving Repr, DecidableEq

/-- Modelled from the spec: the update-state enum lives in
`shared/playlist.interface` which is not part of the visible source; the spec
describes states not-checked / update-available / up-to-date (`UPDATED`) /
update-failed, and the visible code references only `UPDATED`. -/
inductive PlaylistUpdateState where
  | NOT_CHECKED : PlaylistUpdateState
  | UPDATE_AVAILABLE : PlaylistUpdateState
  | UPDATED : PlaylistUpdateState
  | UPDATE_FAILED : PlaylistUpdateState
deriving Repr, DecidableEq

/-- A stored `Playlist` record.  Fields written by `createPlaylistObject`
plus the fields written by the IPC handlers (`position`, `updateDate`,
`updateState`).  The trailing `items`/`header` fields model the top-level
keys that the `PLAYLIST_UPDATE` branch spreads onto the record
(`{ ...currentPlaylist, ...refreshedPlaylist, ... }` copies the
`ParsedPlaylist`'s own `items` and `header` keys onto the stored object);
no other code path sets or reads them. -/
structure Playlist where
  id : Nat
  _id : Nat
  filename : String
  title : String
  count : Nat
  playlist : PlaylistContent
  importDate : Nat
  lastUsage : Nat
  favorites : Option (List Nat)
  autoRefresh : Bool
  url : Option String
  filePath : Option String
  position : Option Nat
  updateDate : Option Nat
  updateState : Option PlaylistUpdateState
  items : Option (List PlaylistItem)
  header : Option PlaylistHeader
deriving Repr, DecidableEq

/-- Reserved identifier of the synthetic global-favorites playlist. -/
def GLOBAL_FAVORITES_PLAYLIST_ID : String := "GLOBAL_FAVORITES"

/-- Model of `playlist.items.map((item) => ({ id: guid(), ...item }))`: assign each
parsed item the next identifier from the supply. -/
def assignIds : Nat → List PlaylistItem → List Channel
  | _, [] => []
  | s, item :: rest =>
    { id := s, name := item.name, url := item.url, group := item.group,
      tvg := item.tvg } :: assignIds (s + 1) rest

/-- Model of `createPlaylistObject(name, playlist, urlOrPath?, uploadType?)`.
`s` is the guid-supply counter (`guid()` is called once for the playlist id
and once per item); `now` is the current instant.  Returns the record and the
advanced supply. -/
def createPlaylistObject (name : String) (playlist : ParsedPlaylist)
    (urlOrPath : Option String) (uploadType : Option UploadType)
    (now : Nat) (s : Nat) : Playlist × Nat :=
  let id := s
  ({ id := id
     _id := id
     filename := name
     title := name
     count := playlist.items.length
     playlist := { header := playlist.header, items := assignIds (s + 1) playlist.items }
     importDate := now
     lastUsage := now
     favorites := some []
     autoRefresh := false
     url := if uploadType = some UploadType.URL then urlOrPath else none
     filePath := if uploadType = some UploadType.FILE then urlOrPath else none
     position := none
     updateDate := none
     updateState := none
     items := none
     header := none }, s + 1 + playlist.items.length)

/-- One invocation's worth of arguments to `createPlaylistObject`. -/
structure CreateInput where
  name : String
  playlist : ParsedPlaylist
  urlOrPath : Option String
  uploadType : Option UploadType
  now : Nat

/-- A sequence of `createPlaylistObject` invocations threading the guid
supply (process-wide uniqueness is a property of the whole run). -/
def runCreate : Nat → List CreateInput → List Playlist × Nat
  | s, [] => ([], s)
  | s, inp :: rest =>
    let pr := createPlaylistObject inp.name inp.playlist inp.urlOrPath inp.uploadType inp.now s
    let rr := runCreate pr.2 rest
    (pr.1 :: rr.1, rr.2)

/-- All entry identifiers produced across a list of records. -/
def allEntryIds (recs : List Playlist) : List Nat :=
  recs.flatMap (fun r => r.playlist.items.map (fun c => c.id))

/-- Body of the `playlists.forEach` loop of `aggregateFavoriteChannels`:
if the playlist's favorites list is present and non-empty
(`playlist.favorites?.length > 0`), push the entries whose id the favorites
list contains, in entry order. -/
def aggStep (favorites : List Channel) (playlist : Playlist) : List Channel :=
  match playlist.favorites with
  | none => favorites
  | some favs =>
    if favs.length > 0 then
      favorites ++ playlist.playlist.items.filter (fun channel => favs.contains channel.id)
    else favorites

/-- Model of `aggregateFavoriteChannels(playlists)`. -/
def aggregateFavoriteChannels (playlists : List Playlist) : List Channel :=
  playlists.foldl aggStep []

/-- The `Partial<Playlist>` shape returned by `createFavoritesPlaylist`:
only `id`, `_id`, `count` and `playlist.items` are populated.  The reserved
identifier is a string constant, not a guid. -/
structure FavoritesPlaylist where
  id : String
  _id : String
  count : Nat
  items : List Channel
deriving Repr, DecidableEq

/-- Model of `createFavoritesPlaylist(channels)`. -/
def createFavoritesPlaylist (channels : List Channel) : FavoritesPlaylist :=
  { id := GLOBAL_FAVORITES_PLAYLIST_ID
    _id := GLOBAL_FAVORITES_PLAYLIST_ID
    count := channels.length
    items := channels }

/-- Specification-side description of the global favorites view (§4.3 of the
spec): per playlist, the entries whose identifier is in that playlist's
favorites set, in entry order, concatenated in collection order; an absent
favorites set selects nothing. -/
def favoritesViewSpec (playlists : List Playlist) : List Channel :=
  playlists.flatMap
    (fun p => p.playlist.items.filter (fun c => (p.favorites.getD []).contains c.id))

/-- Body of the `getGlobalFavoritesCount` loop (the `map` over `getAll`): sums
`playlist.favorites.length` over playlists with non-empty favorites.  The
source reads `.length` without optional chaining, so an absent favorites
field throws; modelled as `none`. -/
def countStep (acc : Option Nat) (playlist : Playlist) : Option Nat :=
  match acc, playlist.favorites with
  | none, _ => none
  | some _, none => none
  | some count, some favs =>
    if favs.length > 0 then some (count + favs.length) else some count

/-- Model of `getGlobalFavoritesCount` over a snapshot of the store. -/
def getGlobalFavoritesCount (playlists : List Playlist) : Option Nat :=
  playlists.foldl countStep (some 0)

/-- The `PLAYLIST_UPDATE` merge:
`{ ...currentPlaylist, ...refreshedPlaylist, count: refreshedPlaylist.items.length,
   updateDate: Date.now(), updateState: PlaylistUpdateState.UPDATED }`.
Spreading the `ParsedPlaylist` copies its top-level `items` and `header`
keys onto the record; the nested `playlist` field is not among the spread
keys and keeps its current value. -/
def mergePlaylist (currentPlaylist : Playlist) (refreshedPlaylist : ParsedPlaylist)
    (now : Nat) : Playlist :=
  { currentPlaylist with
    items := some refreshedPlaylist.items
    header := some refreshedPlaylist.header
    count := refreshedPlaylist.items.length
    updateDate := some now
    updateState := some PlaylistUpdateState.UPDATED }

/-- Replace the record whose primary key is `id` (IndexedDB keys are unique,
so `getByID` + `update` of the spread copy is replacement-by-id). -/
def updateById (db : List Playlist) (id : Nat) (f : Playlist → Playlist) : List Playlist :=
  db.map (fun p => if p.id = id then f p else p)

/-- Messages the service posts back (`window.postMessage`), restricted to the
branches the claims are about. -/
inductive OutMessage where
  | errorMsg : OutMessage
  | getAllResponse : List Playlist → OutMessage
deriving Repr, DecidableEq

/-- Transport outcome of the `http.get` fetch in the `PLAYLIST_UPDATE`
branch: either the response text or a transport error (status code). -/
inductive FetchResult where
  | ok : String → FetchResult
  | error : Nat → FetchResult
deriving Repr, DecidableEq

/-- The `PLAYLIST_UPDATE` branch of `sendIpcEvent` as a function of the fetch
outcome.  `parseFn` stands for `convertFileStringToPlaylist` (the external
`iptv-playlist-parser` applied to the response text).  On a transport error
the `catchError` operator posts `{ type: ERROR }` and rethrows, so the
subscription body (parse, read, merge, write) never runs; on success the
stored record is merged and a get-all response is posted. -/
def handlePlaylistUpdate (parseFn : String → ParsedPlaylist)
    (fetchResult : FetchResult) (payloadId : Nat) (now : Nat)
    (db : List Playlist) : List Playlist × List OutMessage :=
  match fetchResult with
  | FetchResult.error _ => (db, [OutMessage.errorMsg])
  | FetchResult.ok response =>
    let refreshedPlaylist := parseFn response
    let db' := updateById db payloadId (fun cur => mergePlaylist cur refreshedPlaylist now)
    (db', [OutMessage.getAllResponse db'])

/-- The `PLAYLIST_UPDATE_FAVORITES` branch: read by id, write the spread copy
with `favorites` replaced. -/
def handleUpdateFavorites (db : List Playlist) (payloadId : Nat)
    (favorites : List Nat) : List Playlist :=
  updateById db payloadId (fun p => { p with favorites := some favorites })

/-- The comparator `(a, b) => a.position - b.position` of the get-all sort:
ascending by position.  (`position` is always present on the records claim C7
ranges over; an absent position makes the JS comparator return `NaN`, an
unspecified ordering, read here as position 0.) -/
def posLe (a b : Playlist) : Bool :=
  decide (a.position.getD 0 ≤ b.position.getD 0)

/-- The `PLAYLIST_GET_ALL` branch: respond with the collection sorted by the
position comparator (JS `Array.prototype.sort` is a stable comparison sort). -/
def getAllResponse (playlists : List Playlist) : List Playlist :=
  playlists.mergeSort posLe

/-- The `PLAYLIST_UPDATE_POSITIONS` branch: `payload.map((playlist, index) =>`
read `playlist._id`, write the copy with `position: index` `)`.  The batch is
modelled by the `_id` values of the payload records; the independent
read-modify-write chains are applied in batch order (they commute when the
batch identifiers are distinct, which claim C6 assumes). -/
def updatePositionsAux (db : List Playlist) (i : Nat) : List Nat → List Playlist
  | [] => db
  | pid :: rest =>
    updatePositionsAux
      (db.map (fun p => if p.id = pid then { p with position := some i } else p))
      (i + 1) rest

/-- Apply a reorder batch starting at index 0. -/
def updatePositions (db : List Playlist) (batch : List Nat) : List Playlist :=
  updatePositionsAux db 0 batch

end Iptv

namespace Iptv

/-! ### Sample data used for concrete evaluations -/

/-- A stored entry present before a refresh. -/
def sampleOldChannel : Channel :=
  { id := 1, name := "Old channel", url := "http://old/stream", group := "news", tvg := "old" }

/-- A freshly parsed entry (no identifier yet). -/
def sampleFreshItemA : PlaylistItem :=
  { name := "Fresh A", url := "http://fresh/a", group := "news", tvg := "a" }

/-- A second freshly parsed entry. -/
def sampleFreshItemB : PlaylistItem :=
  { name := "Fresh B", url := "http://fresh/b", group := "sport", tvg := "b" }

/-- A stored playlist record with one entry, which is marked favorite. -/
def sampleStored : Playlist :=
  { id := 7, _id := 7, filename := "list.m3u", title := "My list", count := 1
    playlist := { header := { attrs := [], raw := "#EXTM3U" }, items := [sampleOldChannel] }
    importDate := 10, lastUsage := 10, favorites := some [1], autoRefresh := false
    url := some "http://remote/list.m3u", filePath := none, position := some 0
    updateDate := none, updateState := none, items := none, header := none }

/-- A freshly fetched and parsed body with two entries. -/
def sampleFreshBody : ParsedPlaylist :=
  { header := { attrs := [("x-tvg-url", "http://epg")], raw := "#EXTM3U" }
    items := [sampleFreshItemA, sampleFreshItemB] }

/-! ### Claim theorems: merge (C1, C2), transport error (C8), favorites update (C10) -/

/-- C1: the refresh-merge does NOT replace the nested `playlist.items` entry
sequence.  At a concrete stored record with one stale entry and a fresh body
with two entries, the merged record keeps the stale nested sequence unchanged
(same single old entry) while `count` is set to the fresh length 2; the fresh
items and header are copied only onto top-level `items`/`header` keys that no
reader consults.  Update state and last-update timestamp are set as claimed. -/
theorem mergePlaylist_keeps_stale_nested_items :
    (mergePlaylist sampleStored sampleFreshBody 99).playlist = sampleStored.playlist ∧
    (mergePlaylist sampleStored sampleFreshBody 99).playlist.items = [sampleOldChannel] ∧
    (mergePlaylist sampleStored sampleFreshBody 99).count = 2 ∧
    (mergePlaylist sampleStored sampleFreshBody 99).items = some sampleFreshBody.items ∧
    (mergePlaylist sampleStored sampleFreshBody 99).header = some sampleFreshBody.header ∧
    (mergePlaylist sampleStored sampleFreshBody 99).updateDate = some 99 ∧
    (mergePlaylist sampleStored sampleFreshBody 99).updateState =
      some PlaylistUpdateState.UPDATED :=
  ⟨rfl, rfl, rfl, rfl, rfl, rfl, rfl⟩

/-- C2: for every stored record and every fresh body — including bodies whose
entries omit every previously-favorited identifier — the refresh-merge
preserves `id`, `_id`, `title`, `favorites`, `autoRefresh`, the creation
timestamp `importDate`, and the origin fields `url` / `filePath`. -/
theorem mergePlaylist_preserves_identity (cur : Playlist) (fresh : ParsedPlaylist)
    (now : Nat) :
    (mergePlaylist cur fresh now).id = cur.id ∧
    (mergePlaylist cur fresh now)._id = cur._id ∧
    (mergePlaylist cur fresh now).title = cur.title ∧
    (mergePlaylist cur fresh now).favorites = cur.favorites ∧
    (mergePlaylist cur fresh now).autoRefresh = cur.autoRefresh ∧
    (mergePlaylist cur fresh now).importDate = cur.importDate ∧
    (mergePlaylist cur fresh now).url = cur.url ∧
    (mergePlaylist cur fresh now).filePath = cur.filePath :=
  ⟨rfl, rfl, rfl, rfl, rfl, rfl, rfl, rfl⟩

/-- C8: when the fetch of a refresh-by-URL request fails with a transport
error, the handler emits exactly one explicit error signal, performs no merge,
and leaves the stored collection unchanged (and issues no further fetch:
the branch's entire output is this single error response). -/
theorem handlePlaylistUpdate_transport_error (parseFn : String → ParsedPlaylist)
    (status payloadId now : Nat) (db : List Playlist) :
    handlePlaylistUpdate parseFn (FetchResult.error status) payloadId now db =
      (db, [OutMessage.errorMsg]) :=
  rfl

/-- The favorites-update branch preserves the collection's length. -/
theorem length_handleUpdateFavorites (db : List Playlist) (payloadId : Nat)
    (favorites : List Nat) :
    (handleUpdateFavorites db payloadId favorites).length = db.length := by
  simp [handleUpdateFavorites, updateById]

/-- C10: the update-favorites branch replaces the matching record's
`favorites` with the supplied value and changes nothing else: the record at
any position whose id matches becomes the old record with only `favorites`
replaced, and every record whose id does not match is untouched. -/
theorem handleUpdateFavorites_frame (db : List Playlist) (payloadId : Nat)
    (favorites : List Nat) (i : Nat) (hi : i < db.length) :
    ((db.get ⟨i, hi⟩).id = payloadId →
      (handleUpdateFavorites db payloadId favorites).get
          ⟨i, by rw [length_handleUpdateFavorites]; exact hi⟩ =
        { db.get ⟨i, hi⟩ with favorites := some favorites }) ∧
    ((db.get ⟨i, hi⟩).id ≠ payloadId →
      (handleUpdateFavorites db payloadId favorites).get
          ⟨i, by rw [length_handleUpdateFavorites]; exact hi⟩ = db.get ⟨i, hi⟩) := by
  constructor
  · intro h
    have h' : db[i].id = payloadId := h
    simp [handleUpdateFavorites, updateById, h']
  · intro h
    have h' : ¬db[i].id = payloadId := h
    simp [handleUpdateFavorites, updateById, h']

/-- Witness for C10 at a concrete one-record collection: updating favorites of
the record with id 7 to `[1, 2]` yields the same record with only `favorites`
replaced. -/
theorem handleUpdateFavorites_frame_witness :
    (handleUpdateFavorites [sampleStored] 7 [1, 2]).get ⟨0, by decide⟩ =
      { sampleStored with favorites := some [1, 2] } :=
  (handleUpdateFavorites_frame [sampleStored] 7 [1, 2] 0 (by decide)).1 (by decide)

end Iptv

namespace Iptv

/-! ### Claim theorems: favorites aggregation (C3) and global count (C9) -/

/-- Folding `aggStep` from any accumulator appends exactly the
specification-side selection. -/
theorem foldl_aggStep (playlists : List Playlist) (acc : List Channel) :
    playlists.foldl aggStep acc = acc ++ favoritesViewSpec playlists := by
  induction playlists generalizing acc with
  | nil => simp [favoritesViewSpec]
  | cons p rest ih =>
    rw [List.foldl_cons, ih]
    cases hf : p.favorites with
    | none => simp [favoritesViewSpec, aggStep, hf]
    | some favs =>
      by_cases hl : favs.length > 0
      · simp [favoritesViewSpec, aggStep, hf, hl, List.append_assoc]
      · have hfavs : favs = [] := List.length_eq_zero.mp (by omega)
        simp [favoritesViewSpec, aggStep, hf, hfavs]

/-- C3: the global favorites aggregate selects exactly the entries whose
identifier is in their owning playlist's favorites set, in collection order
and, per playlist, in entry order (playlists with an empty or absent
favorites set contribute nothing), and the synthetic favorites playlist
carries those entries with `count` equal to their number. -/
theorem aggregateFavoriteChannels_correct (playlists : List Playlist) :
    aggregateFavoriteChannels playlists = favoritesViewSpec playlists ∧
    (createFavoritesPlaylist (aggregateFavoriteChannels playlists)).items =
      favoritesViewSpec playlists ∧
    (createFavoritesPlaylist (aggregateFavoriteChannels playlists)).count =
      (favoritesViewSpec playlists).length := by
  have h : aggregateFavoriteChannels playlists = favoritesViewSpec playlists := by
    rw [aggregateFavoriteChannels]
    simpa using foldl_aggStep playlists []
  exact ⟨h, by simp [createFavoritesPlaylist, h], by simp [createFavoritesPlaylist, h]⟩

/-- Folding `countStep` from a defined accumulator, over playlists whose
favorites field is present, adds the sum of the favorites sizes. -/
theorem foldl_countStep (playlists : List Playlist) (acc : Nat)
    (h : ∀ p ∈ playlists, p.favorites.isSome) :
    playlists.foldl countStep (some acc) =
      some (acc + (playlists.map (fun p => (p.favorites.getD []).length)).sum) := by
  induction playlists generalizing acc with
  | nil => simp
  | cons p rest ih =>
    have hp : p.favorites.isSome := h p (List.mem_cons_self p rest)
    cases hf : p.favorites with
    | none => rw [hf] at hp; simp at hp
    | some favs =>
      have hrest : ∀ q ∈ rest, q.favorites.isSome := fun q hq => h q (List.mem_cons_of_mem p hq)
      by_cases hl : favs.length > 0
      · rw [List.foldl_cons]
        rw [show countStep (some acc) p = some (acc + favs.length) by
          simp [countStep, hf, hl]]
        rw [ih (acc + favs.length) hrest]
        simp [hf, Nat.add_assoc]
      · have hfavs : favs = [] := List.length_eq_zero.mp (by omega)
        rw [List.foldl_cons]
        rw [show countStep (some acc) p = some acc by simp [countStep, hf, hfavs]]
        rw [ih acc hrest]
        simp [hf, hfavs]

/-- A record whose single favorite identifier no longer occurs among its
entries (an orphaned favorite). -/
def sampleOrphan : Playlist := { sampleStored with favorites := some [999] }

/-- C9: over a collection whose favorites fields are all present,
`getGlobalFavoritesCount` returns the sum of the favorites-set sizes —
orphaned identifiers included — and there is a collection (one record whose
favorite id 999 matches no entry) on which this differs from the `count` of
the global favorites view built from `aggregateFavoriteChannels`. -/
theorem getGlobalFavoritesCount_sum (playlists : List Playlist)
    (h : ∀ p ∈ playlists, p.favorites.isSome) :
    getGlobalFavoritesCount playlists =
      some ((playlists.map (fun p => (p.favorites.getD []).length)).sum) ∧
    ∃ qls : List Playlist, (∀ p ∈ qls, p.favorites.isSome) ∧
      getGlobalFavoritesCount qls ≠
        some (createFavoritesPlaylist (aggregateFavoriteChannels qls)).count := by
  refine ⟨?_, [sampleOrphan], by decide, by decide⟩
  have := foldl_countStep playlists 0 h
  rw [getGlobalFavoritesCount, this, Nat.zero_add]

/-- Witness for C9 at a one-record collection: the stored sample has one
favorite, so the global count is the instantiated sum. -/
theorem getGlobalFavoritesCount_sum_witness :
    getGlobalFavoritesCount [sampleStored] =
      some (([sampleStored].map (fun p => (p.favorites.getD []).length)).sum) ∧
    ∃ qls : List Playlist, (∀ p ∈ qls, p.favorites.isSome) ∧
      getGlobalFavoritesCount qls ≠
        some (createFavoritesPlaylist (aggregateFavoriteChannels qls)).count :=
  getGlobalFavoritesCount_sum [sampleStored] (by decide)

end Iptv

namespace Iptv

/-! ### Claim theorems: normalizer (C4) and identifier freshness (C5) -/

/-- Re-identifying the entries preserves their number. -/
theorem assignIds_length (s : Nat) (l : List PlaylistItem) :
    (assignIds s l).length = l.length := by
  induction l generalizing s with
  | nil => rfl
  | cons a t ih => simp [assignIds, ih]

/-- The identifiers assigned to an entry sequence are the consecutive supply
values starting after the playlist's own identifier. -/
theorem assignIds_ids (s : Nat) (l : List PlaylistItem) :
    (assignIds s l).map (fun c => c.id) = List.range' s l.length := by
  induction l generalizing s with
  | nil => rfl
  | cons a t ih => simp [assignIds, List.range'_succ, ih]

/-- C4: `createPlaylistObject` sets both id fields to the same fresh
identifier (the next supply value), initializes favorites to the empty set
and auto-refresh to false, stamps creation and last-used with the current
instant, sets the entry count to the length of the (re-identified) entry
sequence, and populates exactly the origin field selected by the upload
kind, leaving the other absent. -/
theorem createPlaylistObject_spec (name : String) (playlist : ParsedPlaylist)
    (path : String) (kind : UploadType) (now s : Nat) :
    (createPlaylistObject name playlist (some path) (some kind) now s).1.id = s ∧
    (createPlaylistObject name playlist (some path) (some kind) now s).1._id = s ∧
    (createPlaylistObject name playlist (some path) (some kind) now s).1.favorites =
      some [] ∧
    (createPlaylistObject name playlist (some path) (some kind) now s).1.autoRefresh =
      false ∧
    (createPlaylistObject name playlist (some path) (some kind) now s).1.importDate = now ∧
    (createPlaylistObject name playlist (some path) (some kind) now s).1.lastUsage = now ∧
    (createPlaylistObject name playlist (some path) (some kind) now s).1.count =
      playlist.items.length ∧
    (createPlaylistObject name playlist (some path) (some kind) now s).1.count =
      (createPlaylistObject name playlist (some path) (some kind) now s).1.playlist.items.length ∧
    (createPlaylistObject name playlist (some path) (some kind) now s).1.url =
      (if kind = UploadType.URL then some path else none) ∧
    (createPlaylistObject name playlist (some path) (some kind) now s).1.filePath =
      (if kind = UploadType.FILE then some path else none) ∧
    (((createPlaylistObject name playlist (some path) (some kind) now s).1.url = none ∧
        (createPlaylistObject name playlist (some path) (some kind) now s).1.filePath =
          some path) ∨
      ((createPlaylistObject name playlist (some path) (some kind) now s).1.url =
          some path ∧
        (createPlaylistObject name playlist (some path) (some kind) now s).1.filePath =
          none)) := by
  cases kind <;> simp [createPlaylistObject, assignIds_length]

/-- The guid supply only advances across a run of invocations. -/
theorem runCreate_le (s : Nat) (inputs : List CreateInput) :
    s ≤ (runCreate s inputs).2 := by
  induction inputs generalizing s with
  | nil => simp [runCreate]
  | cons inp rest ih =>
    have h := ih (s + 1 + inp.playlist.items.length)
    simp only [runCreate, createPlaylistObject]
    omega

/-- Every entry identifier produced by a run lies in the supply interval the
run consumed. -/
theorem runCreate_ids_bounds (s : Nat) (inputs : List CreateInput) :
    ∀ idv ∈ allEntryIds (runCreate s inputs).1,
      s ≤ idv ∧ idv < (runCreate s inputs).2 := by
  induction inputs generalizing s with
  | nil => simp [runCreate, allEntryIds]
  | cons inp rest ih =>
    intro idv hm
    have hsplit : allEntryIds (runCreate s (inp :: rest)).1 =
        (assignIds (s + 1) inp.playlist.items).map (fun c => c.id) ++
          allEntryIds (runCreate (s + 1 + inp.playlist.items.length) rest).1 := by
      simp [runCreate, createPlaylistObject, allEntryIds]
    rw [hsplit, List.mem_append] at hm
    have hres : (runCreate s (inp :: rest)).2 =
        (runCreate (s + 1 + inp.playlist.items.length) rest).2 := by
      simp [runCreate, createPlaylistObject]
    rw [hres]
    rcases hm with hm | hm
    · rw [assignIds_ids, List.mem_range'_1] at hm
      have hle := runCreate_le (s + 1 + inp.playlist.items.length) rest
      omega
    · have := ih (s + 1 + inp.playlist.items.length) idv hm
      omega

/-- C5: across any number of invocations of the normalizer threading the
identifier supply, no two produced entries share an identifier — within one
playlist or across separate invocations. -/
theorem runCreate_entryIds_nodup (s : Nat) (inputs : List CreateInput) :
    (allEntryIds (runCreate s inputs).1).Nodup := by
  induction inputs generalizing s with
  | nil => simp [runCreate, allEntryIds]
  | cons inp rest ih =>
    have hsplit : allEntryIds (runCreate s (inp :: rest)).1 =
        (assignIds (s + 1) inp.playlist.items).map (fun c => c.id) ++
          allEntryIds (runCreate (s + 1 + inp.playlist.items.length) rest).1 := by
      simp [runCreate, createPlaylistObject, allEntryIds]
    rw [hsplit, List.nodup_append]
    refine ⟨?_, ih _, ?_⟩
    · rw [assignIds_ids]
      exact List.nodup_range' _ _
    · intro a ha hb
      rw [assignIds_ids, List.mem_range'_1] at ha
      have hbd := (runCreate_ids_bounds (s + 1 + inp.playlist.items.length) rest a hb).1
      omega

end Iptv

namespace Iptv

/-! ### Claim theorems: reorder (C6) -/

/-- The effect of one reorder batch on a single record: successively apply
each batched write (`position := index`) whose identifier matches. -/
def applyPos (i : Nat) : List Nat → Playlist → Playlist
  | [], p => p
  | pid :: rest, p =>
    applyPos (i + 1) rest (if p.id = pid then { p with position := some i } else p)

/-- Index (relative to a running counter) of the last occurrence of `pid` in
the batch — the write that survives. -/
def lastIdx (pid : Nat) : Nat → List Nat → Option Nat
  | _, [] => none
  | i, q :: rest =>
    match lastIdx pid (i + 1) rest with
    | some j => some j
    | none => if pid = q then some i else none

/-- An identifier absent from the batch receives no write. -/
theorem lastIdx_eq_none (pid : Nat) (batch : List Nat) (h : pid ∉ batch) (i : Nat) :
    lastIdx pid i batch = none := by
  induction batch generalizing i with
  | nil => rfl
  | cons q rest ih =>
    have hq : pid ≠ q := fun hc => h (hc ▸ List.mem_cons_self q rest)
    have hr : pid ∉ rest := fun hc => h (List.mem_cons_of_mem q hc)
    simp [lastIdx, ih hr, hq]

/-- Lemma: `applyPos` writes exactly the last matching batch index. -/
theorem applyPos_eq_lastIdx (batch : List Nat) (i : Nat) (p : Playlist) :
    applyPos i batch p =
      match lastIdx p.id i batch with
      | none => p
      | some j => { p with position := some j } := by
  induction batch generalizing i p with
  | nil => rfl
  | cons q rest ih =>
    by_cases h : p.id = q
    · rw [show applyPos i (q :: rest) p =
          applyPos (i + 1) rest { p with position := some i } by simp [applyPos, h]]
      rw [ih]
      show (match lastIdx p.id (i + 1) rest with
            | none => ({ p with position := some i } : Playlist)
            | some j => { p with position := some j }) = _
      cases hl : lastIdx p.id (i + 1) rest with
      | none =>
        have hl' : lastIdx q (i + 1) rest = none := by rw [← h]; exact hl
        simp [lastIdx, hl, hl', h]
      | some j => simp [lastIdx, hl]
    · rw [show applyPos i (q :: rest) p = applyPos (i + 1) rest p by simp [applyPos, h]]
      rw [ih]
      cases hl : lastIdx p.id (i + 1) rest with
      | none => simp [lastIdx, hl, fun hc => h hc.symm ∘ Eq.symm, h]
      | some j => simp [lastIdx, hl]

/-- With a duplicate-free batch, the surviving write for the identifier at
batch position `k` is index `k` itself. -/
theorem lastIdx_of_nodup (batch : List Nat) (hnd : batch.Nodup) (k : Nat)
    (hk : k < batch.length) (i : Nat) :
    lastIdx (batch.get ⟨k, hk⟩) i batch = some (i + k) := by
  induction batch generalizing k i with
  | nil => exact absurd hk (by simp)
  | cons q rest ih =>
    cases k with
    | zero =>
      have hq : q ∉ rest := (List.nodup_cons.mp hnd).1
      simp [lastIdx, lastIdx_eq_none q rest hq]
    | succ k =>
      have hk' : k < rest.length := by simpa using hk
      have hmem : rest.get ⟨k, hk'⟩ ∈ rest := List.get_mem rest k hk'
      have hq : q ∉ rest := (List.nodup_cons.mp hnd).1
      have hne : rest.get ⟨k, hk'⟩ ≠ q := fun hc => hq (hc ▸ hmem)
      have hr := ih (List.nodup_cons.mp hnd).2 k hk' (i + 1)
      show lastIdx (rest.get ⟨k, hk'⟩) i (q :: rest) = some (i + (k + 1))
      rw [show lastIdx (rest.get ⟨k, hk'⟩) i (q :: rest) =
          match lastIdx (rest.get ⟨k, hk'⟩) (i + 1) rest with
          | some j => some j
          | none => if rest.get ⟨k, hk'⟩ = q then some i else none from rfl]
      rw [hr]
      show some (i + 1 + k) = some (i + (k + 1))
      congr 1
      omega

/-- Lemma: `applyPos` never changes the identifier. -/
theorem applyPos_id (batch : List Nat) (i : Nat) (p : Playlist) :
    (applyPos i batch p).id = p.id := by
  rw [applyPos_eq_lastIdx]
  cases lastIdx p.id i batch <;> rfl

/-- A second pass of the same batch repeats exactly the surviving write. -/
theorem applyPos_idem (batch : List Nat) (i : Nat) (p : Playlist) :
    applyPos i batch (applyPos i batch p) = applyPos i batch p := by
  rw [applyPos_eq_lastIdx batch i p]
  cases hl : lastIdx p.id i batch with
  | none =>
    rw [applyPos_eq_lastIdx, hl]
  | some j =>
    rw [applyPos_eq_lastIdx]
    show (match lastIdx p.id i batch with
          | none => ({ p with position := some j } : Playlist)
          | some j' => { p with position := some j' }) = _
    rw [hl]

/-- The batched read-modify-write chains amount to mapping `applyPos` over
the store. -/
theorem updatePositionsAux_eq_map (batch : List Nat) (i : Nat) (db : List Playlist) :
    updatePositionsAux db i batch = db.map (applyPos i batch) := by
  induction batch generalizing i db with
  | nil => simp [updatePositionsAux, applyPos]
  | cons q rest ih =>
    rw [updatePositionsAux, ih, List.map_map]
    rfl

/-- C6: for a duplicate-free batch, the reorder operation sets each
referenced playlist's position to its 0-based index in the supplied order,
and applying the same ordering twice yields the same store as applying it
once. -/
theorem updatePositions_spec (db : List Playlist) (batch : List Nat)
    (hnd : batch.Nodup) :
    (∀ (k : Nat) (hk : k < batch.length) (p : Playlist),
        p ∈ updatePositions db batch → p.id = batch.get ⟨k, hk⟩ →
        p.position = some k) ∧
    updatePositions (updatePositions db batch) batch = updatePositions db batch := by
  constructor
  · intro k hk p hp hid
    rw [updatePositions, updatePositionsAux_eq_map] at hp
    rcases List.mem_map.mp hp with ⟨p0, _, rfl⟩
    rw [applyPos_eq_lastIdx]
    have hid0 : p0.id = batch.get ⟨k, hk⟩ := by
      rw [← applyPos_id batch 0 p0]
      exact hid
    rw [hid0, lastIdx_of_nodup batch hnd k hk 0]
    simp
  · rw [updatePositions, updatePositions, updatePositionsAux_eq_map,
      updatePositionsAux_eq_map, List.map_map]
    apply List.map_congr_left
    intro p _
    exact applyPos_idem batch 0 p

/-- A second stored record, position 1. -/
def sampleStored2 : Playlist :=
  { sampleStored with id := 8, _id := 8, title := "Second list", position := some 1 }

/-- Witness for C6 on a two-record store reordered by `[8, 7]`: the record
with id 8 ends at position 0, and replaying the batch changes nothing. -/
theorem updatePositions_spec_witness :
    (∀ (k : Nat) (hk : k < ([8, 7] : List Nat).length) (p : Playlist),
        p ∈ updatePositions [sampleStored, sampleStored2] [8, 7] →
        p.id = ([8, 7] : List Nat).get ⟨k, hk⟩ → p.position = some k) ∧
    updatePositions (updatePositions [sampleStored, sampleStored2] [8, 7]) [8, 7] =
      updatePositions [sampleStored, sampleStored2] [8, 7] :=
  updatePositions_spec [sampleStored, sampleStored2] [8, 7] (by decide)

end Iptv

namespace Iptv

/-! ### Claim theorems: get-all sorting (C7) -/

/-- The position comparator is transitive. -/
theorem posLe_trans : ∀ a b c : Playlist, posLe a b → posLe b c → posLe a c := by
  intro a b c hab hbc
  simp only [posLe, decide_eq_true_eq] at hab hbc ⊢
  omega

/-- The position comparator is total. -/
theorem posLe_total : ∀ a b : Playlist, posLe a b || posLe b a := by
  intro a b
  simp only [posLe, Bool.or_eq_true, decide_eq_true_eq]
  omega

/-- The get-all response is a permutation of the stored collection. -/
theorem getAllResponse_perm (db : List Playlist) : (getAllResponse db).Perm db :=
  List.mergeSort_perm db posLe

/-- The get-all response is sorted ascending by position. -/
theorem getAllResponse_pairwise (db : List Playlist) :
    (getAllResponse db).Pairwise
      (fun a b => a.position.getD 0 ≤ b.position.getD 0) := by
  have h : (getAllResponse db).Pairwise (fun a b => posLe a b) :=
    List.sorted_mergeSort posLe_trans posLe_total db
  exact h.imp fun hb => of_decide_eq_true hb

/-- Strict position order weakened with equality, to obtain an antisymmetric
order for the sortedness-uniqueness argument. -/
def posLtOrEq (a b : Playlist) : Prop :=
  a.position.getD 0 < b.position.getD 0 ∨ a = b

instance : IsAntisymm Playlist posLtOrEq := ⟨by
  intro a b hab hba
  rcases hab with hab | hab
  · rcases hba with hba | hba
    · omega
    · exact hba.symm
  · exact hab⟩

/-- On a collection with pairwise-distinct positions, a sorted-by-position
permutation is unique. -/
theorem eq_of_perm_of_pairwise_posLt (l₁ l₂ : List Playlist) (hp : l₁.Perm l₂)
    (h₁ : l₁.Pairwise (fun a b => a.position.getD 0 < b.position.getD 0))
    (h₂ : l₂.Pairwise (fun a b => a.position.getD 0 < b.position.getD 0)) :
    l₁ = l₂ := by
  have s₁ : List.Sorted posLtOrEq l₁ := h₁.imp fun h => Or.inl h
  have s₂ : List.Sorted posLtOrEq l₂ := h₂.imp fun h => Or.inl h
  exact List.eq_of_perm_of_sorted hp s₁ s₂

/-- Pairwise non-strict order plus distinct position keys give pairwise
strict order. -/
theorem pairwise_posLt_of_nodup (l : List Playlist)
    (hle : l.Pairwise (fun a b => a.position.getD 0 ≤ b.position.getD 0))
    (hnd : (l.map (fun p => p.position.getD 0)).Nodup) :
    l.Pairwise (fun a b => a.position.getD 0 < b.position.getD 0) := by
  have hne : l.Pairwise (fun a b => a.position.getD 0 ≠ b.position.getD 0) :=
    List.pairwise_map.mp hnd
  exact (hle.and hne).imp fun h => lt_of_le_of_ne h.1 h.2

/-- C7: seen through any storage-iteration order (any permutation `db'` of
the collection `db`), the get-all operation responds with the full collection
sorted ascending by position: the response is sorted, it is a permutation of
the collection, and on distinct positions it is the same list whatever order
storage iterated in. -/
theorem getAllResponse_sorted (db db' : List Playlist) (hperm : db'.Perm db)
    (hpos : (db.map (fun p => p.position.getD 0)).Nodup) :
    (getAllResponse db).Pairwise
      (fun a b => a.position.getD 0 ≤ b.position.getD 0) ∧
    (getAllResponse db).Perm db ∧
    getAllResponse db' = getAllResponse db := by
  have hp₁ := getAllResponse_perm db
  have hp₂ := getAllResponse_perm db'
  have hnd₁ : ((getAllResponse db).map (fun p => p.position.getD 0)).Nodup :=
    (hp₁.map (fun p => p.position.getD 0)).symm.nodup hpos
  have hnd' : (db'.map (fun p => p.position.getD 0)).Nodup :=
    (hperm.map (fun p => p.position.getD 0)).symm.nodup hpos
  have hnd₂ : ((getAllResponse db').map (fun p => p.position.getD 0)).Nodup :=
    (hp₂.map (fun p => p.position.getD 0)).symm.nodup hnd'
  refine ⟨getAllResponse_pairwise db, hp₁, ?_⟩
  exact eq_of_perm_of_pairwise_posLt _ _ ((hp₂.trans hperm).trans hp₁.symm)
    (pairwise_posLt_of_nodup _ (getAllResponse_pairwise db') hnd₂)
    (pairwise_posLt_of_nodup _ (getAllResponse_pairwise db) hnd₁)

/-- A third stored record, position 2. -/
def sampleStored3 : Playlist :=
  { sampleStored with id := 9, _id := 9, title := "Third list", position := some 2 }

/-- Witness for C7 on three records with positions `[2, 0, 1]`: the response
is sorted ascending by position, is a permutation of the collection, and is
the same for a different storage-iteration order. -/
theorem getAllResponse_sorted_witness :
    (getAllResponse [sampleStored3, sampleStored, sampleStored2]).Pairwise
      (fun a b => a.position.getD 0 ≤ b.position.getD 0) ∧
    (getAllResponse [sampleStored3, sampleStored, sampleStored2]).Perm
      [sampleStored3, sampleStored, sampleStored2] ∧
    getAllResponse [sampleStored, sampleStored2, sampleStored3] =
      getAllResponse [sampleStored3, sampleStored, sampleStored2] :=
  getAllResponse_sorted [sampleStored3, sampleStored, sampleStored2]
    [sampleStored, sampleStored2, sampleStored3] (by decide) (by decide)

end Iptv
